import Mathlib

/-
  Verification development for the @fixmyhome/test-runner and
  @fixmyhome/test-utils packages (packages/test-runner/src/index.ts and
  packages/test-utils/src/index.ts).

  The TypeScript source is shallowly embedded:
  * a test body is modelled by its outcome: it either completes normally or
    throws, and a thrown value is recorded by its `.message` property — a
    String for a thrown Error, absent for a thrown non-Error value such as
    `throw 'oops'` or `throw 42`; bodies do not register further cases;
  * uncaught errors propagating out of `describe` bodies or sandboxed
    source are modelled by an `Option String` component of each result
    (`none` = normal completion, `some msg` = a raised error);
  * the module-level mutable variables of test-runner (`tests`,
    `currentDescribe`, `registeredApp`) are gathered into an explicit
    `HostState` record that every stateful function threads through.
-/

-- Outcome of invoking a test body (or a waitFor callback): normal
-- completion, or a throw.  The payload of `err` is the thrown value's
-- `.message` property as read by the catch blocks: `some m` for a thrown
-- Error whose e.message is m, `none` for a thrown non-Error value
-- (`throw 'oops'`, `throw 42`), whose `.message` is undefined.
inductive TestOutcome where
  | ok : TestOutcome
  | err : Option String → TestOutcome
deriving DecidableEq, Repr

-- interface Test { name: string; fn: TestFn }  (index.ts lines 14-17)
structure Test where
  name : String
  fn : TestOutcome
deriving DecidableEq, Repr

-- One element of TestResult.results  (index.ts lines 83-87)
structure CaseResult where
  name : String
  passed : Bool
  error : Option String
deriving DecidableEq, Repr

-- interface TestResult  (index.ts lines 81-88)
structure TestResult where
  passed : Bool
  results : List CaseResult
deriving DecidableEq, Repr

-- The module-level mutable state of test-runner:
--   const tests: Test[] = []            (line 19)
--   let currentDescribe = ''            (line 20)
--   let registeredApp = null            (line 21, components named by Nat ids)
structure HostState where
  tests : List Test
  currentDescribe : String
  registeredApp : Option Nat
deriving DecidableEq, Repr

-- export function describe(name, fn)  (index.ts lines 23-27):
--   currentDescribe = name; fn(); currentDescribe = '';
-- The body `fn` is arbitrary user code acting on the module state and
-- possibly raising; note the reset to '' happens only on the non-raising
-- path, exactly as in the source (no try/finally there).
def describe (name : String) (fn : HostState → HostState × Option String)
    (s : HostState) : HostState × Option String :=
  let s1 := { s with currentDescribe := name }
  match fn s1 with
  | (s2, none) => ({ s2 with currentDescribe := "" }, none)
  | (s2, some e) => (s2, some e)

-- export function it(name, fn)  (index.ts lines 29-34):
--   tests.push({ name: currentDescribe ? `${currentDescribe} > ${name}` : name, fn })
-- JavaScript truthiness on a string: the empty string is falsy.
def it (name : String) (fn : TestOutcome) (s : HostState) : HostState :=
  { s with
    tests := s.tests ++
      [⟨if s.currentDescribe = "" then name
        else s.currentDescribe ++ " > " ++ name, fn⟩] }

-- The body of the per-case loop of runTests (index.ts lines 93-100):
-- a completing body records passed: true, a throwing one records
-- passed: false with error = e.message — which is undefined (none) when the
-- thrown value was not an Error.
def runCase (t : Test) : CaseResult :=
  match t.fn with
  | TestOutcome.ok => ⟨t.name, true, none⟩
  | TestOutcome.err m => ⟨t.name, false, m⟩

-- export async function runTests()  (index.ts lines 90-108): drain `tests`
-- in order, then `tests.length = 0`, and return
-- { passed: results.every(r => r.passed), results }.
def runTests (s : HostState) : HostState × TestResult :=
  let results := s.tests.map runCase
  ({ s with tests := [] }, ⟨results.all CaseResult.passed, results⟩)

-- export function registerApp(App)  (index.ts lines 186-188)
def registerApp (app : Nat) (s : HostState) : HostState :=
  { s with registeredApp := some app }

-- export function cleanup()  (index.ts lines 232-239); the DOM unmount is
-- outside the modelled state, the reset of registeredApp is kept.
def cleanup (s : HostState) : HostState :=
  { s with registeredApp := none }

-- export function render()  (index.ts lines 201-214): throws when no App is
-- registered, otherwise renders the registered component (the DOM container
-- construction is outside the modelled state; the rendered component
-- identifies the observable outcome).
def render (s : HostState) : Except String Nat :=
  match s.registeredApp with
  | none => Except.error "No App registered. Call registerApp(App) first."
  | some app => Except.ok app

/-
  Sandbox Runner (runTestsInVM, index.ts lines 253-353).

  The source text handed to the VM is arbitrary JavaScript, but the only
  bindings visible inside the sandbox that touch observable state are
  `describe`, `it` (and the `test` alias over the same two closures),
  `registerApp` and `cleanup` (the host module's own functions, mutating the
  module-level `registeredApp`), plus the stateless `expect`/`act`/`waitFor`
  helpers.  Nothing in the sandbox can read `registeredApp` (`render` is not
  exposed there).  A sandboxed program is therefore embedded as the trace of
  calls it makes to those bindings: a list of commands, where a `describe`
  call carries the sub-trace produced by its body, and an uncaught top-level
  error is a `throwC` command aborting the rest of the trace.
-/

mutual

inductive VMCmd where
  | describeC : String → VMCmds → VMCmd
  | itC : String → TestOutcome → VMCmd
  | registerAppC : Nat → VMCmd
  | cleanupC : VMCmd
  | throwC : String → VMCmd

inductive VMCmds where
  | nil : VMCmds
  | cons : VMCmd → VMCmds → VMCmds

end

-- The state visible to a running sandboxed program:
-- `tests` and `describe` form the sandbox-local collector
-- `__testResults: { tests: [], describe: '' }` (line 271, built fresh per
-- invocation), while `app` aliases the host module's `registeredApp`
-- (lines 298-299 bind the host's registerApp/cleanup into the sandbox).
structure VMState where
  tests : List Test
  describe : String
  app : Option Nat
deriving DecidableEq, Repr

mutual

-- sandbox.describe (lines 275-279), sandbox.it (lines 281-288),
-- sandbox.registerApp / sandbox.cleanup (lines 298-299), and an uncaught
-- top-level throw.  The second component is the raised error, if any.
def execVMCmd : VMCmd → VMState → VMState × Option String
  | VMCmd.describeC name body, s =>
    match execVMCmds body { s with describe := name } with
    | (s2, none) => ({ s2 with describe := "" }, none)
    | (s2, some e) => (s2, some e)
  | VMCmd.itC name fn, s =>
    ({ s with
       tests := s.tests ++
         [⟨if s.describe = "" then name
           else s.describe ++ " > " ++ name, fn⟩] }, none)
  | VMCmd.registerAppC a, s => ({ s with app := some a }, none)
  | VMCmd.cleanupC, s => ({ s with app := none }, none)
  | VMCmd.throwC m, s => (s, some m)

def execVMCmds : VMCmds → VMState → VMState × Option String
  | VMCmds.nil, s => (s, none)
  | VMCmds.cons c cs, s =>
    match execVMCmd c s with
    | (s2, none) => execVMCmds cs s2
    | (s2, some e) => (s2, some e)

end

-- export async function runTestsInVM(bundledCode)  (index.ts lines 253-353):
-- build a fresh sandbox collector, execute the code; if execution raised,
-- return the single synthetic "Code execution" failure (lines 320-331)
-- without draining anything; otherwise drain the sandbox-local tests in
-- order (lines 334-352).  The host module's registeredApp is whatever the
-- sandboxed code left in it; the host's own `tests`/`currentDescribe` are
-- untouched.
def runTestsInVM (host : HostState) (code : VMCmds) : HostState × TestResult :=
  match execVMCmds code ⟨[], "", host.registeredApp⟩ with
  | (s, some e) =>
    ({ host with registeredApp := s.app },
     ⟨false, [⟨"Code execution", false, some ("Failed to execute code: " ++ e)⟩]⟩)
  | (s, none) =>
    let results := s.tests.map runCase
    ({ host with registeredApp := s.app },
     ⟨results.all CaseResult.passed, results⟩)

/-
  waitFor (index.ts lines 152-175).

  The callback is modelled by the outcome of its k-th invocation
  (`cb : Nat → TestOutcome`).  The wall clock is modelled by the elapsed
  time since `startTime`: it starts at 0 and advances at the
  `await setTimeout(resolve, interval)` in the catch branch — the only
  suspension point of the loop.  Node's timers clamp a delay below 1ms (in
  particular interval 0) up to 1ms, so each retry sleep advances the wall
  clock by `max interval 1`.  The loop
  `while (Date.now() - startTime < timeout)` thus runs while
  `elapsed < timeout`.  The recursion is driven by a fuel argument;
  `waitFor` supplies `timeout + 1` fuel, which always exceeds the number of
  iterations the deadline permits (each retry advances the clock by at
  least 1), and the fuel-exhaustion branch coincides with the deadline
  branch.
-/

inductive JSValue where
  | num : Int → JSValue
  | nan : JSValue
  | str : String → JSValue
  | boolV : Bool → JSValue
  | nullV : JSValue
  | undef : JSValue
  | obj : Nat → JSValue
deriving DecidableEq, Repr

-- Strict equality `===`: no coercion across constructors, NaN unequal to
-- everything including itself, objects by identity.
def strictEq : JSValue → JSValue → Bool
  | JSValue.num a, JSValue.num b => a == b
  | JSValue.str a, JSValue.str b => a == b
  | JSValue.boolV a, JSValue.boolV b => a == b
  | JSValue.nullV, JSValue.nullV => true
  | JSValue.undef, JSValue.undef => true
  | JSValue.obj i, JSValue.obj j => i == j
  | _, _ => false

def jsonStringify : JSValue → String
  | JSValue.num n => toString n
  | JSValue.nan => "null"
  | JSValue.str s => "\"" ++ s ++ "\""
  | JSValue.boolV true => "true"
  | JSValue.boolV false => "false"
  | JSValue.nullV => "null"
  | JSValue.undef => "undefined"
  | JSValue.obj _ => "\x7b\x7d"

-- expect(actual).toBe(expected)  (lines 37-43): throws
-- `Expected ${JSON.stringify(expected)}, got ${JSON.stringify(actual)}`
-- exactly when `actual !== expected`.
def toBe (actual expected : JSValue) : Except String Unit :=
  if strictEq actual expected then Except.ok ()
  else
    Except.error
      ("Expected " ++ jsonStringify expected ++ ", got " ++ jsonStringify actual)

-- expect(actual).not.toBe(expected)  (lines 44-50): throws
-- `Expected not ${JSON.stringify(expected)}` exactly when `actual === expected`.
def notToBe (actual expected : JSValue) : Except String Unit :=
  if strictEq actual expected then
    Except.error ("Expected not " ++ jsonStringify expected)
  else Except.ok ()

/-
  validateProblemTests (test-utils/src/index.ts lines 191-232).

  The file-system probe and the two sandboxed runs are the function's
  inputs here: `solutionExists` abstracts `existsSync(join(problemPath,
  'solution'))`, and `solutionResult`/`srcResult` abstract the two
  `runTestsWithCode` calls.  Everything after those calls is embedded
  verbatim: the early return for a missing solution folder, and the error
  accumulation deciding `valid`.
-/

structure ValidationResult where
  valid : Bool
  solutionResult : Option TestResult
  srcResult : Option TestResult
  errors : List String
deriving DecidableEq, Repr

-- `${result.error}` in a template literal renders a missing message as
-- "undefined".
def errText : Option String → String
  | some s => s
  | none => "undefined"

def validateProblemTests (solutionExists : Bool)
    (solutionResult srcResult : TestResult) : ValidationResult :=
  if solutionExists = false then
    ⟨true, none, none, ["No solution/ folder - skipping test validation"]⟩
  else
    let solutionErrors :=
      if solutionResult.passed = false then
        ["solution/ code failed tests (should pass all tests)", "Failed tests:"]
          ++ (solutionResult.results.filter (fun r => r.passed = false)).map
              (fun r => "  - " ++ r.name ++ ": " ++ errText r.error)
      else []
    let srcErrors :=
      if srcResult.passed then
        ["src/ code passed all tests (should have bugs that fail tests)"]
      else []
    let errors := solutionErrors ++ srcErrors
    ⟨errors.length == 0, some solutionResult, some srcResult, errors⟩

/-
  Helper lemmas.
-/

-- No sandbox binding reads the host's registeredApp, so the sandbox-local
-- collector and the raised error after executing any sandboxed program are
-- the same whatever value registeredApp held when the invocation started.

mutual

theorem execVMCmd_app_indep :
    ∀ (c : VMCmd) (t : List Test) (d : String) (a a' : Option Nat),
      (execVMCmd c ⟨t, d, a⟩).1.tests = (execVMCmd c ⟨t, d, a'⟩).1.tests ∧
      (execVMCmd c ⟨t, d, a⟩).1.describe = (execVMCmd c ⟨t, d, a'⟩).1.describe ∧
      (execVMCmd c ⟨t, d, a⟩).2 = (execVMCmd c ⟨t, d, a'⟩).2
  | VMCmd.describeC nm body, t, d, a, a' => by
    have ih := execVMCmds_app_indep body t nm a a'
    simp only [execVMCmd]
    rcases h1 : execVMCmds body ⟨t, nm, a⟩ with ⟨s1, e1⟩
    rcases h2 : execVMCmds body ⟨t, nm, a'⟩ with ⟨s2, e2⟩
    rw [h1, h2] at ih
    obtain ⟨ht, hd, he⟩ := ih
    cases e1 <;> cases e2 <;> simp_all
  | VMCmd.itC nm fn, t, d, a, a' => by simp [execVMCmd]
  | VMCmd.registerAppC x, t, d, a, a' => by simp [execVMCmd]
  | VMCmd.cleanupC, t, d, a, a' => by simp [execVMCmd]
  | VMCmd.throwC m, t, d, a, a' => by simp [execVMCmd]

theorem execVMCmds_app_indep :
    ∀ (cs : VMCmds) (t : List Test) (d : String) (a a' : Option Nat),
      (execVMCmds cs ⟨t, d, a⟩).1.tests = (execVMCmds cs ⟨t, d, a'⟩).1.tests ∧
      (execVMCmds cs ⟨t, d, a⟩).1.describe = (execVMCmds cs ⟨t, d, a'⟩).1.describe ∧
      (execVMCmds cs ⟨t, d, a⟩).2 = (execVMCmds cs ⟨t, d, a'⟩).2
  | VMCmds.nil, t, d, a, a' => by simp [execVMCmds]
  | VMCmds.cons c cs, t, d, a, a' => by
    have ihc := execVMCmd_app_indep c t d a a'
    simp only [execVMCmds]
    rcases h1 : execVMCmd c ⟨t, d, a⟩ with ⟨⟨t1, d1, a1⟩, e1⟩
    rcases h2 : execVMCmd c ⟨t, d, a'⟩ with ⟨⟨t2, d2, a2⟩, e2⟩
    rw [h1, h2] at ihc
    obtain ⟨ht, hd, he⟩ := ihc
    dsimp only at ht hd he
    subst ht
    subst hd
    subst he
    cases e1 with
    | some e => simp
    | none => simpa using execVMCmds_app_indep cs t1 d1 a1 a2

end

-- Draining a case keeps its registered name.
theorem runCase_name (t : Test) : (runCase t).name = t.name := by
  cases t with
  | mk n fn => cases fn <;> simp [runCase]

-- A drained case that did not pass was produced by a throwing body, and its
-- error field is exactly that throw's `.message` (possibly absent).
theorem runCase_failed_inv (t : Test) :
    (runCase t).passed = false → t.fn = TestOutcome.err (runCase t).error := by
  cases t with
  | mk n fn => cases fn <;> simp [runCase]

-- The drained report lists the registered case names in registration order.
theorem runTests_results_names (s : HostState) :
    (runTests s).2.results.map CaseResult.name = s.tests.map Test.name := by
  simp [runTests, List.map_map]
  intro t _
  exact runCase_name t

-- The report of a Sandbox Runner invocation does not depend on the host
-- state the invocation started from (the sandbox collector is rebuilt fresh
-- and no sandbox binding reads host state).
theorem runTestsInVM_report_host_indep (h h' : HostState) (b : VMCmds) :
    (runTestsInVM h b).2 = (runTestsInVM h' b).2 := by
  have key := execVMCmds_app_indep b [] "" h.registeredApp h'.registeredApp
  simp only [runTestsInVM]
  rcases h1 : execVMCmds b ⟨[], "", h.registeredApp⟩ with ⟨⟨t1, d1, a1⟩, e1⟩
  rcases h2 : execVMCmds b ⟨[], "", h'.registeredApp⟩ with ⟨⟨t2, d2, a2⟩, e2⟩
  rw [h1, h2] at key
  obtain ⟨ht, hd, he⟩ := key
  dsimp only at ht hd he
  subst ht
  subst hd
  subst he
  cases e1 <;> simp

/-
  Claim theorems.
-/

/-- C1: Sandbox registry isolation — for any two successive invocations of
runTestsInVM, the second invocation's report is exactly what running its own
source against a fresh host yields (results only for cases registered by the
second source); in particular, after a first invocation whose source
registers the case "foo", a second invocation whose source registers nothing
reports an empty results list with passed true. -/
theorem c1_sandbox_registry_isolation : ∀ (h : HostState) (a b : VMCmds),
    (runTestsInVM ((runTestsInVM h a).1) b).2 = (runTestsInVM h b).2 ∧
    (runTestsInVM ((runTestsInVM h
        (VMCmds.cons (VMCmd.itC "foo" TestOutcome.ok) VMCmds.nil)).1)
      VMCmds.nil).2 = ⟨true, []⟩ := by
  intro h a b
  exact ⟨runTestsInVM_report_host_indep ((runTestsInVM h a).1) h b, rfl⟩

/-- C1 witness: concrete isolation scenario — source A registers "foo",
source B registers nothing, and B's report is `{passed: true, results: []}`. -/
theorem c1_sandbox_registry_isolation_witness :
    (runTestsInVM ((runTestsInVM ⟨[], "", none⟩
        (VMCmds.cons (VMCmd.itC "foo" TestOutcome.ok) VMCmds.nil)).1)
      VMCmds.nil).2 = ⟨true, []⟩ :=
  (c1_sandbox_registry_isolation ⟨[], "", none⟩ VMCmds.nil VMCmds.nil).2

/-- C2: code bug exhibited — `describe` performs a bare set/call/reset with
no guaranteed release, so when the group body raises, the raise propagates
with `currentDescribe` still set to the group name, and a case registered
afterwards (by a caller that caught the error) is wrongly given the group
prefix: it is named "G > solo" instead of "solo".  The sandbox-local
`describe` of runTestsInVM has the same flaw. -/
theorem c2_group_reset_code_bug :
    (describe "G" (fun s => (s, some "boom")) ⟨[], "", none⟩).2 = some "boom" ∧
    (describe "G" (fun s => (s, some "boom")) ⟨[], "", none⟩).1.currentDescribe = "G" ∧
    ((it "solo" TestOutcome.ok
        (describe "G" (fun s => (s, some "boom")) ⟨[], "", none⟩).1).tests.map
      Test.name = ["G > solo"]) ∧
    (execVMCmd (VMCmd.describeC "G" (VMCmds.cons (VMCmd.throwC "boom") VMCmds.nil))
        ⟨[], "", none⟩).1.describe = "G" := by
  refine ⟨rfl, rfl, ?_, rfl⟩
  simp [describe, it]

/-- C3: execution-abort path of the Sandbox Runner — whenever evaluating the
supplied source raises, runTestsInVM returns a report with exactly one
CaseResult named "Code execution", passed false, whose error message is
derived from the execution error, and nothing registered before the raise is
drained. -/
theorem c3_execution_abort : ∀ (h : HostState) (code : VMCmds) (sv : VMState)
    (msg : String),
    execVMCmds code ⟨[], "", h.registeredApp⟩ = (sv, some msg) →
    (runTestsInVM h code).2 =
      ⟨false, [⟨"Code execution", false,
        some ("Failed to execute code: " ++ msg)⟩]⟩ := by
  intro h code sv msg hexec
  simp [runTestsInVM, hexec]

/-- C3 witness: a source that registers a case and then raises "boom" at top
level yields the single synthetic execution failure and the registered case
is not drained. -/
theorem c3_execution_abort_witness :
    execVMCmds (VMCmds.cons (VMCmd.itC "x" TestOutcome.ok)
        (VMCmds.cons (VMCmd.throwC "boom") VMCmds.nil))
      ⟨[], "", (⟨[], "", none⟩ : HostState).registeredApp⟩
      = (⟨[⟨"x", TestOutcome.ok⟩], "", none⟩, some "boom") ∧
    (runTestsInVM ⟨[], "", none⟩ (VMCmds.cons (VMCmd.itC "x" TestOutcome.ok)
        (VMCmds.cons (VMCmd.throwC "boom") VMCmds.nil))).2 =
      ⟨false, [⟨"Code execution", false,
        some ("Failed to execute code: " ++ "boom")⟩]⟩ :=
  ⟨rfl, c3_execution_abort ⟨[], "", none⟩ _ ⟨[⟨"x", TestOutcome.ok⟩], "", none⟩
    "boom" rfl⟩

/-- C4: for every registry of cases (bodies modelled by their outcomes, so
they register nothing themselves), runTests returns one CaseResult per
registered case in registration order, its passed field is the conjunction
of all entries' passed fields, and an empty registry yields
`{passed: true, results: []}`. -/
theorem c4_run_report_shape : ∀ (s : HostState),
    (runTests s).2.results = s.tests.map runCase ∧
    (runTests s).2.results.map CaseResult.name = s.tests.map Test.name ∧
    (runTests s).2.results.length = s.tests.length ∧
    ((runTests s).2.passed = true ↔
      ∀ r ∈ (runTests s).2.results, r.passed = true) ∧
    (runTests { s with tests := [] }).2 = ⟨true, []⟩ := by
  intro s
  refine ⟨rfl, runTests_results_names s, by simp [runTests], ?_,
    by simp [runTests]⟩
  simp [runTests, List.all_eq_true]

/-- C4 witness: a two-case registry (one passing, one failing) reports two
results in order and passed = false. -/
theorem c4_run_report_shape_witness :
    (runTests ⟨[⟨"a", TestOutcome.ok⟩, ⟨"b", TestOutcome.err (some "e")⟩], "",
      none⟩).2.results.length = 2 := by
  have h := c4_run_report_shape
    ⟨[⟨"a", TestOutcome.ok⟩, ⟨"b", TestOutcome.err (some "e")⟩], "", none⟩
  simpa using h.2.2.1

/-- C6 counterexample: the claim is false of the program — the drain loops
record `error: e.message`, and a test body that throws a non-Error value
(e.g. `throw 'oops'`) has `e.message` undefined, so both runTests and the
Sandbox Runner's drain phase report a passed:false entry with no
explanatory message. -/
theorem c6_counterexample_messageless_throw :
    (runTests ⟨[⟨"t", TestOutcome.err none⟩], "", none⟩).2.results =
      [⟨"t", false, none⟩] ∧
    (runTestsInVM ⟨[], "", none⟩
        (VMCmds.cons (VMCmd.itC "t" (TestOutcome.err none))
          VMCmds.nil)).2.results = [⟨"t", false, none⟩] ∧
    (⟨"t", false, none⟩ : CaseResult).passed = false ∧
    (⟨"t", false, none⟩ : CaseResult).error = none :=
  ⟨rfl, rfl, rfl, rfl⟩

/-- C6 (amended): in every report of runTests and of the Sandbox Runner's
drain phase, each attempted case appears exactly once, in registration
order, and every entry with passed false carries exactly the `.message` of
the value its body threw — a specific error string whenever the body threw
an Error carrying a message, and a missing message only when the thrown
value itself carried none (a non-Error throw). -/
theorem c6_failure_messages_amended : ∀ (s : HostState),
    ((runTests s).2.results.map CaseResult.name = s.tests.map Test.name) ∧
    (∀ r ∈ (runTests s).2.results, r.passed = false →
      ∃ t ∈ s.tests, t.name = r.name ∧ t.fn = TestOutcome.err r.error) ∧
    (∀ (h : HostState) (code : VMCmds) (sv : VMState),
      execVMCmds code ⟨[], "", h.registeredApp⟩ = (sv, none) →
      ((runTestsInVM h code).2.results.map CaseResult.name =
        sv.tests.map Test.name) ∧
      (∀ r ∈ (runTestsInVM h code).2.results, r.passed = false →
        ∃ t ∈ sv.tests, t.name = r.name ∧ t.fn = TestOutcome.err r.error)) := by
  intro s
  refine ⟨runTests_results_names s, ?_, ?_⟩
  · intro r hr hfail
    simp [runTests] at hr
    obtain ⟨t, ht, rfl⟩ := hr
    exact ⟨t, ht, (runCase_name t).symm, runCase_failed_inv t hfail⟩
  · intro h code sv hexec
    constructor
    · simp [runTestsInVM, hexec, List.map_map]
      intro t _
      exact runCase_name t
    · intro r hr hfail
      simp [runTestsInVM, hexec] at hr
      obtain ⟨t, ht, rfl⟩ := hr
      exact ⟨t, ht, (runCase_name t).symm, runCase_failed_inv t hfail⟩

/-- C6 witness: a body throwing an Error with message "boom" yields a
failing entry carrying exactly "boom". -/
theorem c6_failure_messages_amended_witness :
    ∃ t ∈ ((⟨[⟨"t", TestOutcome.err (some "boom")⟩], "", none⟩ :
        HostState)).tests,
      t.name = (⟨"t", false, some "boom"⟩ : CaseResult).name ∧
      t.fn = TestOutcome.err (⟨"t", false, some "boom"⟩ : CaseResult).error :=
  (c6_failure_messages_amended
      ⟨[⟨"t", TestOutcome.err (some "boom")⟩], "", none⟩).2.1
    ⟨"t", false, some "boom"⟩ (by simp [runTests, runCase]) rfl

/-- C7: strict-equality assertion contract — expect(a).toBe(e) raises
exactly when a and e are not identical under strict equality (no coercion),
with a message embedding the serialized forms of both values;
expect(NaN).toBe(NaN) fails because NaN is not strictly equal to itself; and
expect(a).not.toBe(e) raises exactly when a and e are identical. -/
theorem c7_tobe_strict_equality : ∀ (a e : JSValue),
    (toBe a e = Except.ok () ↔ strictEq a e = true) ∧
    (toBe a e = Except.error
        ("Expected " ++ jsonStringify e ++ ", got " ++ jsonStringify a)
      ↔ strictEq a e = false) ∧
    (toBe JSValue.nan JSValue.nan = Except.error "Expected null, got null") ∧
    (notToBe a e = Except.error ("Expected not " ++ jsonStringify e)
      ↔ strictEq a e = true) ∧
    (notToBe a e = Except.ok () ↔ strictEq a e = false) := by
  intro a e
  refine ⟨?_, ?_, rfl, ?_, ?_⟩ <;>
    cases h : strictEq a e <;> simp [toBe, notToBe, h]

/-- C7 witness: expect(1).toBe(1) passes, expect(NaN).toBe(NaN) raises. -/
theorem c7_tobe_strict_equality_witness :
    toBe (JSValue.num 1) (JSValue.num 1) = Except.ok () ∧
    toBe JSValue.nan JSValue.nan = Except.error "Expected null, got null" :=
  ⟨(c7_tobe_strict_equality (JSValue.num 1) (JSValue.num 1)).1.mpr (by decide),
   (c7_tobe_strict_equality (JSValue.num 0) (JSValue.num 0)).2.2.1⟩

/-- C8: reset idempotence of the Local Runner — after any runTests call the
registry is empty (emptied exactly once, independent of how many cases
failed), and a second runTests with no registrations in between returns
`{passed: true, results: []}` and leaves the state unchanged. -/
theorem c8_reset_idempotence : ∀ (s : HostState),
    (runTests s).1.tests = [] ∧
    runTests (runTests s).1 = ((runTests s).1, ⟨true, []⟩) := by
  intro s
  exact ⟨rfl, by simp [runTests]⟩

/-- C8 witness: after draining a registry with one failing case, the second
run reports `{passed: true, results: []}`. -/
theorem c8_reset_idempotence_witness :
    runTests (runTests ⟨[⟨"t", TestOutcome.err (some "x")⟩], "", none⟩).1 =
      ((runTests ⟨[⟨"t", TestOutcome.err (some "x")⟩], "", none⟩).1,
        ⟨true, []⟩) :=
  (c8_reset_idempotence ⟨[⟨"t", TestOutcome.err (some "x")⟩], "", none⟩).2

/-- C9: the registerApp binding injected into the VM sandbox is the host
module's registerApp, mutating the module-level registeredApp, and
runTestsInVM never resets it — a component registered during one invocation
is still the registered App afterwards (visible to the host's render and to
subsequent invocations), even though the sandbox test registry itself is
rebuilt fresh each invocation. -/
theorem c9_registerapp_leak : ∀ (h : HostState) (c : Nat) (nm : String)
    (o : TestOutcome),
    ((runTestsInVM h (VMCmds.cons (VMCmd.registerAppC c) VMCmds.nil)).1 =
      { h with registeredApp := some c }) ∧
    (render (runTestsInVM h (VMCmds.cons (VMCmd.registerAppC c) VMCmds.nil)).1 =
      Except.ok c) ∧
    ((runTestsInVM (runTestsInVM h
        (VMCmds.cons (VMCmd.registerAppC c) VMCmds.nil)).1
      (VMCmds.cons (VMCmd.itC nm o) VMCmds.nil)).1.registeredApp = some c) ∧
    ((runTestsInVM (runTestsInVM h
        (VMCmds.cons (VMCmd.registerAppC c) VMCmds.nil)).1
      (VMCmds.cons (VMCmd.itC nm o) VMCmds.nil)).2.results.map
        CaseResult.name = [nm]) := by
  intro h c nm o
  refine ⟨rfl, rfl, rfl, ?_⟩
  simp [runTestsInVM, execVMCmds, execVMCmd, runCase_name]

/-- C9 witness: registering component 7 inside a sandboxed run leaves it as
the host's registered App. -/
theorem c9_registerapp_leak_witness :
    (runTestsInVM ⟨[], "", none⟩
      (VMCmds.cons (VMCmd.registerAppC 7) VMCmds.nil)).1 =
      { tests := [], currentDescribe := "", registeredApp := some 7 } :=
  (c9_registerapp_leak ⟨[], "", none⟩ 7 "n" TestOutcome.ok).1

/-- C10: when the problem's solution/ folder does not exist,
validateProblemTests returns valid true together with the single-entry,
non-empty errors list and neither run result — so on this path valid true
does not imply an empty errors list, while on the other return path valid
equals (errors is empty). -/
theorem c10_validate_no_solution : ∀ (sol src : TestResult),
    (validateProblemTests false sol src =
      ⟨true, none, none, ["No solution/ folder - skipping test validation"]⟩) ∧
    ((validateProblemTests false sol src).valid = true ∧
      (validateProblemTests false sol src).errors ≠ []) ∧
    ((validateProblemTests true sol src).valid = true ↔
      (validateProblemTests true sol src).errors = []) := by
  intro sol src
  refine ⟨rfl, ⟨rfl, by simp [validateProblemTests]⟩, ?_⟩
  simp [validateProblemTests, List.length_eq_zero]

/-- C10 witness: with both abstract run results passing, the no-solution
path returns valid true with the skip message and no results. -/
theorem c10_validate_no_solution_witness :
    validateProblemTests false ⟨true, []⟩ ⟨true, []⟩ =
      ⟨true, none, none, ["No solution/ folder - skipping test validation"]⟩ :=
  (c10_validate_no_solution ⟨true, []⟩ ⟨true, []⟩).1
